import Mathlib

/- Verification of the smarthr-ai semantic retrieval-and-scoring core
   against its natural-language specification.

   Modelling conventions.  Python strings are modelled as lists of
   characters (`List Char`), Python floats as rationals, Python lists as
   Lean lists.  The external sentence-embedding model and the external
   language-model provider are abstract function parameters; the faiss
   vector index, an external library, is modelled from the specification
   (section 4.3) where a claim depends on it, and each such definition is
   marked `Modelled from the spec`.  All other definitions are direct
   transcriptions of the Python source in src/modules. -/

/-- Helper for pyWords: Python str.split() with no argument.  The
accumulator holds the word currently being read; a whitespace character
closes the current word, every other character extends it. -/
def pyWordsAux : List Char → List Char → List (List Char)
  | [], acc => if acc = [] then [] else [acc]
  | c :: cs, acc =>
    if c.isWhitespace then
      if acc = [] then pyWordsAux cs [] else acc :: pyWordsAux cs []
    else pyWordsAux cs (acc ++ [c])

/-- Python text.split() with no argument, as used at utils.py line 81 and
policy_chatbot.py line 84: split on runs of whitespace, dropping empty
tokens. -/
def pyWords (s : List Char) : List (List Char) := pyWordsAux s []

/-- Python single-space join of a list of words, as in the expression
joining words[i : i + chunk_size] at utils.py line 87 and
policy_chatbot.py line 89. -/
def pyJoinSpace : List (List Char) → List Char
  | [] => []
  | [w] => w
  | w :: ws => w ++ ' ' :: pyJoinSpace ws

/-- Python truthiness of chunk.strip() (utils.py line 89,
policy_chatbot.py line 90): true exactly when the chunk contains a
character that is not whitespace. -/
def pyStripTruthy (s : List Char) : Bool := s.any (fun c => !c.isWhitespace)

/-- Python range(0, n, step) for positive step: the multiples of step
below n, in increasing order. -/
def pyRange (n step : ℕ) : List ℕ := List.range' 0 ((n + step - 1) / step) step

/-- utils.chunk_text (utils.py lines 58-92): slide a window of chunk_size
words over the split text, advancing by chunk_size - overlap words each
step, join each window with single spaces, and keep the windows whose
stripped text is nonempty. -/
def chunk_text (text : List Char) (chunk_size overlap : ℕ) : List (List Char) :=
  let words := pyWords text
  ((pyRange words.length (chunk_size - overlap)).map
    (fun i => pyJoinSpace ((words.drop i).take chunk_size))).filter pyStripTruthy

/-- PolicyChatbot.chunk_text (policy_chatbot.py lines 72-94): the same
sliding-window loop, duplicated in the source, followed by a fallback
that returns the whole text as a single chunk when no chunk was
produced. -/
def PolicyChatbot.chunk_text (text : List Char) (chunk_size overlap : ℕ) : List (List Char) :=
  let words := pyWords text
  let chunks := ((pyRange words.length (chunk_size - overlap)).map
    (fun i => pyJoinSpace ((words.drop i).take chunk_size))).filter pyStripTruthy
  if chunks = [] then [text] else chunks

/-- The window start indices used by chunk_text on a word list of length
n: Python range(0, n, chunk_size - overlap) (utils.py line 86). -/
def chunkStarts (n chunk_size overlap : ℕ) : List ℕ := pyRange n (chunk_size - overlap)

/-- The word-index range (start, stop) of the source text covered by each
chunk produced by chunk_text: the window starting at i holds the words
with indices i, ..., min (i + chunk_size) n - 1. -/
def chunkWordRanges (text : List Char) (chunk_size overlap : ℕ) : List (ℕ × ℕ) :=
  (chunkStarts (pyWords text).length chunk_size overlap).map
    (fun i => (i, min (i + chunk_size) (pyWords text).length))

/-- The number of word indices shared by two word-index ranges. -/
def sharedWordCount (r s : ℕ × ℕ) : ℕ :=
  (Finset.Ico r.1 r.2 ∩ Finset.Ico s.1 s.2).card

/-- Python round(x, 2): rounding to two decimal places.  Floats are
modelled by rationals; the half-way tie direction of the model is
immaterial to every claim below. -/
def round2 (q : ℚ) : ℚ := ((round (q * 100) : ℤ) : ℚ) / 100

/-- The per-candidate record assembled by
RecruitmentEngine.screen_candidates (recruitment.py lines 189-202),
restricted to the scoring fields. -/
structure ScoreResult where
  similarity_score : ℚ
  skill_match_rate : ℚ
  matched_skills : List (List Char)
  final_score : ℚ
  shortlisted : Bool

/-- recruitment.py lines 141-150: the resume text is truncated to its
first 2000 characters, embedded, compared to the job-description
embedding by cosine similarity, scaled by 100 and rounded to two decimal
places.  sim abstracts the external composite
util.cos_sim(model.encode x, model.encode y).item(). -/
def similarity_score_of (sim : List Char → List Char → ℚ) (raw_text jd : List Char) : ℚ :=
  round2 (sim (raw_text.take 2000) jd * 100)

/-- recruitment.py lines 157-160: the required skills present in the
candidate skill list, by plain Python list membership. -/
def matched_skills_of (required_skills candidate_skills : List (List Char)) : List (List Char) :=
  required_skills.filter (fun s => decide (s ∈ candidate_skills))

/-- recruitment.py lines 169-172: matched count over required count,
scaled by 100 and rounded to two decimal places; 0 when no skills are
required. -/
def skill_match_rate_of (required_skills candidate_skills : List (List Char)) : ℚ :=
  if 0 < required_skills.length then
    round2 ((((matched_skills_of required_skills candidate_skills).length : ℚ)
      / required_skills.length) * 100)
  else 0

/-- recruitment.py line 179: the weighted final score. -/
def final_score_of (sim : List Char → List Char → ℚ)
    (required_skills candidate_skills : List (List Char)) (raw_text jd : List Char) : ℚ :=
  round2 (similarity_score_of sim raw_text jd * 0.6
    + skill_match_rate_of required_skills candidate_skills * 0.4)

/-- One iteration of the screening loop of
RecruitmentEngine.screen_candidates (recruitment.py lines 121-204) for a
successfully parsed candidate: the scoring fields packaged at lines
189-202.  threshold is the shortlisting threshold of line 184. -/
def screenCandidate (sim : List Char → List Char → ℚ)
    (required_skills candidate_skills : List (List Char))
    (raw_text jd : List Char) (threshold : ℚ) : ScoreResult :=
  { similarity_score := similarity_score_of sim raw_text jd
    skill_match_rate := skill_match_rate_of required_skills candidate_skills
    matched_skills := matched_skills_of required_skills candidate_skills
    final_score := final_score_of sim required_skills candidate_skills raw_text jd
    shortlisted := decide (final_score_of sim required_skills candidate_skills raw_text jd ≥ threshold) }

/-- Python str.lower on a word; Char.toLower covers the ASCII skill names
involved in the comparisons below. -/
def lowerWord (w : List Char) : List Char := w.map Char.toLower

/-- The skill match rate as worded by the specification (section 4.5):
the share of required skills present in the candidate skill set under
case-insensitive exact-string membership, times 100, and 0 for an empty
requirement set.  This definition follows the words of the spec and is
compared against the rate computed by screenCandidate. -/
def skillMatchRateSpec (required_skills candidate_skills : List (List Char)) : ℚ :=
  if required_skills = [] then 0
  else ((required_skills.filter
      (fun s => candidate_skills.any (fun c => lowerWord c = lowerWord s))).length : ℚ)
    / required_skills.length * 100

/-- Embedding vectors, modelled as rational lists. -/
abbrev Vec := List ℚ

/-- Squared Euclidean distance, the exact metric named by the spec
(section 4.3) for the vector index. -/
def sqDist (u v : Vec) : ℚ := ((u.zip v).map (fun p => (p.1 - p.2) ^ 2)).sum

/-- Ordering of (index, distance) search hits by non-decreasing
distance. -/
def distLE (a b : ℕ × ℚ) : Prop := a.2 ≤ b.2

instance : DecidableRel distLE := fun a b => inferInstanceAs (Decidable (a.2 ≤ b.2))

instance : IsTotal (ℕ × ℚ) distLE := ⟨fun a b => le_total a.2 b.2⟩

instance : IsTrans (ℕ × ℚ) distLE := ⟨fun _ _ _ h h2 => le_trans h h2⟩

/-- Modelled from the spec: the Vector Index search of section 4.3.  The
source delegates this to faiss.IndexFlatL2 (policy_chatbot.py lines
191-192 and 231), an external library whose code is not under src/; the
spec prescribes exact brute-force search by squared Euclidean distance
with results ordered by non-decreasing distance and at most corpus-size
results.  An insertion sort realises the required ordering. -/
def faissSearch (vecs : List Vec) (q : Vec) (k : ℕ) : List (ℕ × ℚ) :=
  (((vecs.map (sqDist q)).enum).insertionSort distLE).take k

/-- The PolicyChatbot session state relevant to retrieval
(policy_chatbot.py lines 42-46): the parallel chunk and chunk-source
lists and the optional search index, which is None until
build_vector_store succeeds. -/
structure ChatState where
  chunks : List (List Char)
  chunk_sources : List (List Char)
  index : Option (List Vec)

/-- One retrieval hit as assembled at policy_chatbot.py lines
236-241. -/
structure RetrievedChunk where
  content : List Char
  source : List Char
  distance : ℚ
  rank : ℕ

/-- PolicyChatbot.retrieve_relevant_chunks (policy_chatbot.py lines
206-252).  When the index is None the function logs a message and
returns the empty list (lines 223-225); otherwise it embeds the query,
searches the index, and maps each hit back to its chunk text and source
name (lines 228-242).  embed abstracts the external model.encode; list
indexing is modelled totally by getD, and under the search model every
returned index is within bounds. -/
def PolicyChatbot.retrieve_relevant_chunks (embed : List Char → Vec)
    (st : ChatState) (query : List Char) (top_k : ℕ) : List RetrievedChunk :=
  match st.index with
  | none => []
  | some vecs =>
    let query_embedding := embed query
    let hits := faissSearch vecs query_embedding top_k
    hits.enum.map (fun p =>
      { content := st.chunks.getD p.2.1 []
        source := st.chunk_sources.getD p.2.1 []
        distance := p.2.2
        rank := p.1 + 1 })

/-- The fixed fallback answer of generate_response
(policy_chatbot.py line 278). -/
def fallbackAnswer : List Char :=
  ("I do not have any policy documents loaded yet. Upload some PDFs first!").toList

/-- The context block of generate_response (policy_chatbot.py lines
283-286): the retrieved chunks, each tagged with its source name,
joined by blank lines. -/
def contextBlock (retrieved : List RetrievedChunk) : List Char :=
  List.intercalate (("\n\n").toList)
    (retrieved.map (fun c => ("[From ").toList ++ c.source ++ ("]\n").toList ++ c.content))

/-- The user prompt of generate_response (policy_chatbot.py lines
292-305), assembled from the context block and the query. -/
def promptFor (context query : List Char) : List Char :=
  ("You are a helpful HR assistant. Answer the question using ONLY the policy documents provided below.\n\nHR Policy Context:\n").toList
    ++ context
    ++ ("\n\nEmployee Question: ").toList ++ query
    ++ ("\n\nInstructions:\n- Give a clear, helpful answer\n- ONLY use information from the policy documents above\n- Mention which policy document the info comes from\n- If the answer is not in the policies, say so honestly\n\nAnswer:").toList

/-- Result of generate_response: the answer text and the cited source
names. -/
structure GenResult where
  answer : List Char
  sources : List (List Char)

/-- PolicyChatbot.generate_response (policy_chatbot.py lines 255-336),
paired with the number of Language Model Provider calls the invocation
makes.  llm abstracts a successful Groq chat completion on the
assembled prompt; the set of cited sources built by list(set(...)) at
line 289 is modelled by dedup, its iteration order being unspecified in
Python.  The zero-chunk early return of lines 276-280 is taken before
any provider call. -/
def PolicyChatbot.generate_response (embed : List Char → Vec)
    (llm : List Char → List Char) (st : ChatState) (query : List Char) :
    GenResult × ℕ :=
  let retrieved_chunks := PolicyChatbot.retrieve_relevant_chunks embed st query 5
  if retrieved_chunks.isEmpty then
    ({ answer := fallbackAnswer, sources := [] }, 0)
  else
    let context := contextBlock retrieved_chunks
    let sources := (retrieved_chunks.map (fun c => c.source)).dedup
    ({ answer := llm (promptFor context query), sources := sources }, 1)

/- Helper lemmas about the word model. -/

/-- Every word produced by pyWordsAux from a whitespace-free accumulator
is nonempty and whitespace-free. -/
theorem pyWordsAux_mem (s : List Char) :
    ∀ (acc : List Char), (∀ c ∈ acc, c.isWhitespace = false) →
    ∀ w ∈ pyWordsAux s acc, w ≠ [] ∧ ∀ c ∈ w, c.isWhitespace = false := by
  induction s with
  | nil =>
    intro acc hacc w hw
    by_cases h : acc = []
    · simp [pyWordsAux, h] at hw
    · simp [pyWordsAux, h] at hw
      exact hw ▸ ⟨h, hacc⟩
  | cons c cs ih =>
    intro acc hacc w hw
    by_cases hws : c.isWhitespace
    · by_cases h : acc = []
      · rw [pyWordsAux, if_pos hws, if_pos h] at hw
        exact ih [] (by simp) w hw
      · rw [pyWordsAux, if_pos hws, if_neg h] at hw
        rcases List.mem_cons.mp hw with rfl | hw
        · exact ⟨h, hacc⟩
        · exact ih [] (by simp) w hw
    · rw [pyWordsAux, if_neg hws] at hw
      refine ih (acc ++ [c]) ?_ w hw
      intro d hd
      rcases List.mem_append.mp hd with hd | hd
      · exact hacc d hd
      · simp at hd
        subst hd
        exact Bool.not_eq_true _ ▸ (by simpa using hws)

/-- Every word of a split text is nonempty and whitespace-free. -/
theorem pyWords_mem (t : List Char) (w : List Char) (hw : w ∈ pyWords t) :
    w ≠ [] ∧ ∀ c ∈ w, c.isWhitespace = false :=
  pyWordsAux_mem t [] (by simp) w hw

/-- Unfolding lemma for pyJoinSpace on a list of at least two words. -/
theorem pyJoinSpace_cons₂ (w x : List Char) (xs : List (List Char)) :
    pyJoinSpace (w :: x :: xs) = w ++ ' ' :: pyJoinSpace (x :: xs) := rfl

/-- A nonempty list of nonempty whitespace-free words joins to a chunk
whose stripped text is nonempty. -/
theorem pyStripTruthy_join (ws : List (List Char)) (hne : ws ≠ [])
    (h : ∀ w ∈ ws, w ≠ [] ∧ ∀ c ∈ w, c.isWhitespace = false) :
    pyStripTruthy (pyJoinSpace ws) = true := by
  obtain ⟨w, ws', rfl⟩ := List.exists_cons_of_ne_nil hne
  obtain ⟨hw, hchar⟩ := h w (by simp)
  obtain ⟨c0, w0, rfl⟩ := List.exists_cons_of_ne_nil hw
  have hc0 : c0 ∈ pyJoinSpace ((c0 :: w0) :: ws') := by
    cases ws' with
    | nil => simp [pyJoinSpace]
    | cons b bs => rw [pyJoinSpace_cons₂]; simp
  rw [pyStripTruthy]
  refine List.any_eq_true.mpr ⟨c0, hc0, ?_⟩
  simpa using hchar c0 (by simp)

/-- Every window start produced by pyRange lies below n. -/
theorem mem_pyRange_lt {n step i : ℕ} (hstep : 0 < step) (hi : i ∈ pyRange n step) :
    i < n := by
  rw [pyRange, List.mem_range'] at hi
  obtain ⟨j, hj, rfl⟩ := hi
  have h1 : step * (j + 1) ≤ step * ((n + step - 1) / step) := by
    exact Nat.mul_le_mul_left step hj
  have h2 : (n + step - 1) / step * step ≤ n + step - 1 := Nat.div_mul_le_self _ _
  have h3 : step * ((n + step - 1) / step) = (n + step - 1) / step * step := Nat.mul_comm _ _
  have h4 : step * j + step = step * (j + 1) := by ring
  omega

/-- The window start covering word index j is a member of pyRange. -/
theorem div_mul_mem_pyRange {n step j : ℕ} (hstep : 0 < step) (hj : j < n) :
    step * (j / step) ∈ pyRange n step := by
  rw [pyRange, List.mem_range']
  refine ⟨j / step, ?_, by ring⟩
  have h1 : j / step ≤ (n - 1) / step :=
    Nat.div_le_div_right (by omega)
  have h2 : n + step - 1 = (n - 1) + step := by omega
  have h3 : ((n - 1) + step) / step = (n - 1) / step + 1 :=
    Nat.add_div_right _ hstep
  rw [h2, h3]
  omega

/-- The k-th window start is step * k. -/
theorem pyRange_getElem {n step : ℕ} (k : ℕ) (h : k < (pyRange n step).length) :
    (pyRange n step)[k] = step * k := by
  simp only [pyRange] at h ⊢
  rw [List.getElem_range']
  omega

/-- pyRange has an element exactly when n is positive. -/
theorem pyRange_ne_nil {n step : ℕ} (hstep : 0 < step) (hn : 0 < n) :
    pyRange n step ≠ [] := by
  have h0 : (0 : ℕ) ∈ pyRange n step := by
    have := div_mul_mem_pyRange hstep hn
    simpa using this
  exact List.ne_nil_of_mem h0

/-- Every window of the split text starting below the word count joins to
a chunk whose stripped text is nonempty, so the filter of chunk_text
keeps it. -/
theorem window_strip_truthy (t : List Char) (size i : ℕ) (hsize : 0 < size)
    (hi : i < (pyWords t).length) :
    pyStripTruthy (pyJoinSpace (((pyWords t).drop i).take size)) = true := by
  apply pyStripTruthy_join
  · apply List.ne_nil_of_length_pos
    rw [List.length_take, List.length_drop]
    omega
  · intro w hw
    exact pyWords_mem t w (List.mem_of_mem_drop (List.mem_of_mem_take hw))

/-- The stripped-empty filter of chunk_text never removes a window: every
produced chunk contains a word.  chunk_text is the bare window map. -/
theorem chunk_text_eq_map (t : List Char) (size ov : ℕ) (hov : ov < size) :
    chunk_text t size ov
      = (pyRange (pyWords t).length (size - ov)).map
          (fun i => pyJoinSpace (((pyWords t).drop i).take size)) := by
  rw [chunk_text]
  apply List.filter_eq_self.mpr
  intro c hc
  obtain ⟨i, hi, rfl⟩ := List.mem_map.mp hc
  exact window_strip_truthy t size i (by omega) (mem_pyRange_lt (by omega) hi)

/-- On a text with at least one word, chunk_text returns at least one
chunk. -/
theorem chunk_text_ne_nil (t : List Char) (size ov : ℕ) (hov : ov < size)
    (hw : pyWords t ≠ []) : chunk_text t size ov ≠ [] := by
  rw [chunk_text_eq_map t size ov hov]
  intro h
  rw [List.map_eq_nil_iff] at h
  exact pyRange_ne_nil (by omega) (List.length_pos.mpr hw) h

/-- The chunks of chunk_text are exactly the single-space joins of the
word windows described by chunkWordRanges: the word-index ranges of the
produced chunks are the members of chunkWordRanges. -/
theorem chunk_text_eq_join_ranges (t : List Char) (size ov : ℕ) (hov : ov < size) :
    chunk_text t size ov
      = (chunkWordRanges t size ov).map
          (fun r => pyJoinSpace (((pyWords t).drop r.1).take (r.2 - r.1))) := by
  rw [chunk_text_eq_map t size ov hov, chunkWordRanges, chunkStarts, List.map_map]
  apply List.map_congr_left
  intro i hi
  simp only [Function.comp]
  congr 1
  rw [List.take_eq_take]
  rw [List.length_drop]
  omega

/-- PolicyChatbot.chunk_text is the utils chunker followed by the
single-chunk fallback; the two loop bodies are the same code. -/
theorem policy_chunk_text_eq (t : List Char) (size ov : ℕ) :
    PolicyChatbot.chunk_text t size ov
      = if chunk_text t size ov = [] then [t] else chunk_text t size ov := rfl

/-- C4: the spec example is refuted.  chunk("a b c d e", chunkSize 3,
overlap 1) does not return the two chunks claimed: the loop also visits
the window start 4 and emits the extra chunk "e". -/
theorem c4_counterexample :
    chunk_text (("a b c d e").toList) 3 1
      ≠ [("a b c").toList, ("c d e").toList] := by decide

/-- C4 (amended): chunk("a b c d e", chunkSize 3, overlap 1) returns
exactly the three chunks "a b c", "c d e" and "e". -/
theorem c4_chunk_example :
    chunk_text (("a b c d e").toList) 3 1
      = [("a b c").toList, ("c d e").toList, ("e").toList] := by decide

/-- C5: refuted twice over.  The text "a b c" has word count 3 ≤
chunkSize 3 with overlap 1 < 3, yet chunk returns two chunks, not the
single-element list [T]; and the non-empty whitespace-only text " "
yields the empty result, so non-empty input does not guarantee non-empty
output. -/
theorem c5_counterexample :
    (pyWords (("a b c").toList)).length = 3
    ∧ chunk_text (("a b c").toList) 3 1 ≠ [("a b c").toList]
    ∧ chunk_text ((" ").toList) 3 1 = []
    ∧ (" ").toList ≠ [] := by decide

/-- C5 (amended): for every text with at least one word and word count at
most chunkSize - overlap, both chunkers return the single chunk holding
all the words of the text joined by single spaces. -/
theorem c5_single_chunk_small_text (t : List Char) (size ov : ℕ) (hov : ov < size)
    (h1 : 0 < (pyWords t).length) (h2 : (pyWords t).length ≤ size - ov) :
    chunk_text t size ov = [pyJoinSpace (pyWords t)]
    ∧ PolicyChatbot.chunk_text t size ov = [pyJoinSpace (pyWords t)] := by
  have hstep : 0 < size - ov := by omega
  have hcnt : ((pyWords t).length + (size - ov) - 1) / (size - ov) = 1 :=
    Nat.div_eq_of_lt_le (by omega) (by omega)
  have hrange : pyRange (pyWords t).length (size - ov) = [0] := by
    rw [pyRange, hcnt]
    rfl
  have hmain : chunk_text t size ov = [pyJoinSpace (pyWords t)] := by
    rw [chunk_text_eq_map t size ov hov, hrange]
    simp [List.take_of_length_le (by omega : (pyWords t).length ≤ size)]
  refine ⟨hmain, ?_⟩
  rw [policy_chunk_text_eq, hmain]
  simp

/-- C5 witness: the single-word text "hello" with chunkSize 3 and
overlap 1 yields that word as its only chunk, in both chunkers. -/
theorem c5_witness :
    chunk_text (("hello").toList) 3 1 = [pyJoinSpace (pyWords (("hello").toList))]
    ∧ PolicyChatbot.chunk_text (("hello").toList) 3 1
        = [pyJoinSpace (pyWords (("hello").toList))] :=
  c5_single_chunk_small_text (("hello").toList) 3 1 (by decide) (by decide) (by decide)

/-- C10: refuted on the empty text.  utils.chunk_text returns the empty
list there, while PolicyChatbot.chunk_text returns the original text as
a single chunk. -/
theorem c10_counterexample :
    PolicyChatbot.chunk_text [] 500 50 ≠ chunk_text [] 500 50 := by decide

/-- C10 (amended): the two chunkers agree on every text containing at
least one word; on whitespace-only (in particular empty) text,
utils.chunk_text returns [] while PolicyChatbot.chunk_text returns the
whole text as one chunk. -/
theorem c10_chunkers_agree_on_wordful_text (t : List Char) (size ov : ℕ)
    (hov : ov < size) :
    (pyWords t ≠ [] → PolicyChatbot.chunk_text t size ov = chunk_text t size ov)
    ∧ (pyWords t = [] →
        chunk_text t size ov = [] ∧ PolicyChatbot.chunk_text t size ov = [t]) := by
  constructor
  · intro hw
    rw [policy_chunk_text_eq, if_neg (chunk_text_ne_nil t size ov hov hw)]
  · intro hw
    have hmain : chunk_text t size ov = [] := by
      rw [chunk_text_eq_map t size ov hov, hw]
      have : pyRange (0 : ℕ) (size - ov) = [] := by
        rw [pyRange, Nat.div_eq_of_lt (by omega)]
        rfl
      simp [this]
    exact ⟨hmain, by rw [policy_chunk_text_eq, hmain]; simp⟩

/-- C10 witness: instantiation at the text "a b", chunkSize 3,
overlap 1. -/
theorem c10_witness :
    (pyWords (("a b").toList) ≠ [] →
      PolicyChatbot.chunk_text (("a b").toList) 3 1 = chunk_text (("a b").toList) 3 1)
    ∧ (pyWords (("a b").toList) = [] →
        chunk_text (("a b").toList) 3 1 = []
        ∧ PolicyChatbot.chunk_text (("a b").toList) 3 1 = [("a b").toList]) :=
  c10_chunkers_agree_on_wordful_text (("a b").toList) 3 1 (by decide)

/-- C9: refuted.  On the six-word text "a b c d e f" with chunkSize 4 and
overlap 3 there are six chunks; the adjacent chunks at positions 3 and 4
(neither of which is the final chunk) share only 2 words, not the
configured overlap of 3. -/
theorem c9_counterexample :
    chunkWordRanges (("a b c d e f").toList) 4 3
      = [(0, 4), (1, 5), (2, 6), (3, 6), (4, 6), (5, 6)]
    ∧ 3 + 2 < (chunkWordRanges (("a b c d e f").toList) 4 3).length
    ∧ sharedWordCount
        ((chunkWordRanges (("a b c d e f").toList) 4 3).getD 3 (0, 0))
        ((chunkWordRanges (("a b c d e f").toList) 4 3).getD 4 (0, 0)) = 2 := by
  refine ⟨by decide, by decide, ?_⟩
  have h : (chunkWordRanges (("a b c d e f").toList) 4 3).getD 3 (0, 0) = (3, 6)
      ∧ (chunkWordRanges (("a b c d e f").toList) 4 3).getD 4 (0, 0) = (4, 6) := by decide
  rw [h.1, h.2, sharedWordCount, Finset.Ico_inter_Ico]
  simp

/-- C9 (amended): for overlap < chunkSize, the word-index ranges of the
chunks cover every word of the text with no gap, and each pair of
adjacent chunks shares exactly min overlap w words, where w is the word
count of the later chunk of the pair; in particular adjacent chunks
share exactly overlap words whenever the later chunk has at least
overlap words. -/
theorem c9_coverage_and_overlap (t : List Char) (size ov : ℕ) (hov : ov < size) :
    (∀ j, j < (pyWords t).length →
      ∃ r ∈ chunkWordRanges t size ov, r.1 ≤ j ∧ j < r.2)
    ∧ (∀ k, k + 1 < (chunkWordRanges t size ov).length →
        sharedWordCount
          ((chunkWordRanges t size ov).getD k (0, 0))
          ((chunkWordRanges t size ov).getD (k + 1) (0, 0))
          = min ov (((chunkWordRanges t size ov).getD (k + 1) (0, 0)).2
              - ((chunkWordRanges t size ov).getD (k + 1) (0, 0)).1)) := by
  have hstep : 0 < size - ov := by omega
  constructor
  · intro j hj
    refine ⟨((size - ov) * (j / (size - ov)),
      min ((size - ov) * (j / (size - ov)) + size) (pyWords t).length), ?_, ?_, ?_⟩
    · rw [chunkWordRanges, chunkStarts]
      exact List.mem_map.mpr ⟨_, div_mul_mem_pyRange hstep hj, rfl⟩
    · calc (size - ov) * (j / (size - ov))
          = j / (size - ov) * (size - ov) := Nat.mul_comm _ _
        _ ≤ j := Nat.div_mul_le_self j _
    · have hmod := Nat.div_add_mod j (size - ov)
      have hmodlt : j % (size - ov) < size - ov := Nat.mod_lt _ hstep
      refine lt_min ?_ hj
      omega
  · intro k hk
    have hlen : (chunkWordRanges t size ov).length
        = (pyRange (pyWords t).length (size - ov)).length := by
      rw [chunkWordRanges, chunkStarts, List.length_map]
    have hk1 : k < (pyRange (pyWords t).length (size - ov)).length := by omega
    have hk2 : k + 1 < (pyRange (pyWords t).length (size - ov)).length := by omega
    have e1 : (chunkWordRanges t size ov).getD k (0, 0)
        = ((size - ov) * k, min ((size - ov) * k + size) (pyWords t).length) := by
      rw [chunkWordRanges, chunkStarts,
        List.getD_eq_getElem _ _ (by rw [List.length_map]; exact hk1),
        List.getElem_map, pyRange_getElem]
    have e2 : (chunkWordRanges t size ov).getD (k + 1) (0, 0)
        = ((size - ov) * (k + 1), min ((size - ov) * (k + 1) + size) (pyWords t).length) := by
      rw [chunkWordRanges, chunkStarts,
        List.getD_eq_getElem _ _ (by rw [List.length_map]; exact hk2),
        List.getElem_map, pyRange_getElem]
    have hmem : (size - ov) * (k + 1) ∈ pyRange (pyWords t).length (size - ov) := by
      have h := List.getElem_mem hk2
      rwa [pyRange_getElem] at h
    have hlt : (size - ov) * (k + 1) < (pyWords t).length := mem_pyRange_lt hstep hmem
    rw [e1, e2, sharedWordCount, Finset.Ico_inter_Ico, Nat.card_Ico]
    have hmul : (size - ov) * (k + 1) = (size - ov) * k + (size - ov) := by ring
    generalize (size - ov) * k = A at *
    omega

/-- C9 witness: instantiation at the text "a b c d e", chunkSize 3,
overlap 1. -/
theorem c9_witness :
    (∀ j, j < (pyWords (("a b c d e").toList)).length →
      ∃ r ∈ chunkWordRanges (("a b c d e").toList) 3 1, r.1 ≤ j ∧ j < r.2)
    ∧ (∀ k, k + 1 < (chunkWordRanges (("a b c d e").toList) 3 1).length →
        sharedWordCount
          ((chunkWordRanges (("a b c d e").toList) 3 1).getD k (0, 0))
          ((chunkWordRanges (("a b c d e").toList) 3 1).getD (k + 1) (0, 0))
          = min 1 (((chunkWordRanges (("a b c d e").toList) 3 1).getD (k + 1) (0, 0)).2
              - ((chunkWordRanges (("a b c d e").toList) 3 1).getD (k + 1) (0, 0)).1)) :=
  c9_coverage_and_overlap (("a b c d e").toList) 3 1 (by decide)

/-- round2 is monotone. -/
theorem round2_mono {a b : ℚ} (h : a ≤ b) : round2 a ≤ round2 b := by
  rw [round2, round2]
  have hr : round (a * 100) ≤ round (b * 100) := by
    rw [round_eq, round_eq]
    exact Int.floor_mono (by linarith)
  have hc : ((round (a * 100) : ℤ) : ℚ) ≤ ((round (b * 100) : ℤ) : ℚ) := by
    exact_mod_cast hr
  linarith

/-- C1: for every scored candidate, the final score is the 60/40 weighted
combination of the similarity score and the skill match rate, rounded to
two decimal places, and the shortlisted flag holds exactly when the
final score reaches the threshold, for every threshold in [0, 100]. -/
theorem c1_final_score_formula (sim : List Char → List Char → ℚ)
    (required_skills candidate_skills : List (List Char)) (raw_text jd : List Char)
    (threshold : ℚ) (h0 : 0 ≤ threshold) (h100 : threshold ≤ 100) :
    (screenCandidate sim required_skills candidate_skills raw_text jd threshold).final_score
      = round2 (0.6 * (screenCandidate sim required_skills candidate_skills
            raw_text jd threshold).similarity_score
          + 0.4 * (screenCandidate sim required_skills candidate_skills
            raw_text jd threshold).skill_match_rate)
    ∧ ((screenCandidate sim required_skills candidate_skills
          raw_text jd threshold).shortlisted = true
        ↔ (screenCandidate sim required_skills candidate_skills
            raw_text jd threshold).final_score ≥ threshold) := by
  constructor
  · simp only [screenCandidate]
    rw [final_score_of]
    congr 1
    ring
  · simp only [screenCandidate, decide_eq_true_eq]

/-- C1 witness: a concrete instantiation at threshold 50. -/
theorem c1_witness :
    (0 : ℚ) ≤ 50 ∧ (50 : ℚ) ≤ 100
    ∧ ((screenCandidate (fun _ _ => 0) [] [] [] [] 50).final_score
        = round2 (0.6 * (screenCandidate (fun _ _ => 0) [] [] [] [] 50).similarity_score
            + 0.4 * (screenCandidate (fun _ _ => 0) [] [] [] [] 50).skill_match_rate)
      ∧ ((screenCandidate (fun _ _ => 0) [] [] [] [] 50).shortlisted = true
          ↔ (screenCandidate (fun _ _ => 0) [] [] [] [] 50).final_score ≥ 50)) :=
  ⟨by norm_num, by norm_num,
    c1_final_score_formula (fun _ _ => 0) [] [] [] [] 50 (by norm_num) (by norm_num)⟩

/-- C2: refuted.  The code tests skill membership with plain Python list
membership, which is case-SENSITIVE, and rounds the rate to two decimal
places.  With required skills Python, SQL, AWS and candidate skills
python, SQL, the case-insensitive formula of the claim gives 200/3
(Python and SQL both match), while the code matches only SQL and
reports 33.33. -/
theorem c2_counterexample :
    (screenCandidate (fun _ _ => 0)
        [("Python").toList, ("SQL").toList, ("AWS").toList]
        [("python").toList, ("SQL").toList] [] [] 50).skill_match_rate = 3333 / 100
    ∧ skillMatchRateSpec [("Python").toList, ("SQL").toList, ("AWS").toList]
        [("python").toList, ("SQL").toList] = 200 / 3
    ∧ (3333 / 100 : ℚ) ≠ 200 / 3 := by
  refine ⟨?_, ?_, by norm_num⟩
  · have hm : matched_skills_of [("Python").toList, ("SQL").toList, ("AWS").toList]
        [("python").toList, ("SQL").toList] = [("SQL").toList] := by decide
    simp only [screenCandidate, skill_match_rate_of, hm]
    norm_num [round2, round_eq]
  · have hf : (List.filter (fun s => [("python").toList, ("SQL").toList].any
        (fun c => lowerWord c = lowerWord s))
        [("Python").toList, ("SQL").toList, ("AWS").toList]).length = 2 := by decide
    rw [skillMatchRateSpec, if_neg (by decide), hf]
    norm_num

/-- C2 (amended): for every candidate, the skill match rate equals the
number of required skills present in the candidate skill list under
case-SENSITIVE exact-string membership, divided by the number of
required skills, times 100 and rounded to two decimal places; it is 0
when the requirement skill list is empty. -/
theorem c2_skill_match_rate_case_sensitive (sim : List Char → List Char → ℚ)
    (required_skills candidate_skills : List (List Char)) (raw_text jd : List Char)
    (threshold : ℚ) :
    (screenCandidate sim required_skills candidate_skills
        raw_text jd threshold).skill_match_rate
      = if required_skills.length = 0 then 0
        else round2 ((((required_skills.filter
            (fun s => decide (s ∈ candidate_skills))).length : ℚ)
          / required_skills.length) * 100) := by
  simp only [screenCandidate, skill_match_rate_of, matched_skills_of]
  rcases Nat.eq_zero_or_pos required_skills.length with h | h
  · rw [if_neg (by omega), if_pos h]
  · rw [if_pos h, if_neg (by omega)]

/-- C3: refuted.  The code embeds only the first 2000 characters of the
resume text (recruitment.py line 142).  With an embedding-similarity
model that distinguishes the 2001-character text from its truncation,
the claim predicts a similarity score of 0 while the code reports
100. -/
theorem c3_counterexample :
    (screenCandidate (fun a _ => if a.length ≤ 2000 then (1 : ℚ) else 0) [] []
        (List.replicate 2001 'a') [] 50).similarity_score = 100
    ∧ (fun (a : List Char) (_ : List Char) => if a.length ≤ 2000 then (1 : ℚ) else 0)
        (List.replicate 2001 'a') [] * 100 = 0
    ∧ (100 : ℚ) ≠ 0 := by
  refine ⟨?_, ?_, by norm_num⟩
  · simp only [screenCandidate, similarity_score_of, List.take_replicate,
      List.length_replicate]
    norm_num [round2, round_eq]
  · simp only [List.length_replicate]
    rw [if_neg (by omega)]
    norm_num

/-- C3 (amended): the similarity score equals the cosine similarity of
the embeddings of the FIRST 2000 CHARACTERS of the candidate raw text
and of the requirement text, times 100 and rounded to two decimal
places; when that cosine similarity lies in [-1, 1] the score lies in
[-100, 100], and negative values are not clamped to zero. -/
theorem c3_similarity_truncated_not_clamped (sim : List Char → List Char → ℚ)
    (required_skills candidate_skills : List (List Char)) (raw_text jd : List Char)
    (threshold : ℚ)
    (h1 : -1 ≤ sim (raw_text.take 2000) jd) (h2 : sim (raw_text.take 2000) jd ≤ 1) :
    (screenCandidate sim required_skills candidate_skills
        raw_text jd threshold).similarity_score
      = round2 (sim (raw_text.take 2000) jd * 100)
    ∧ -100 ≤ (screenCandidate sim required_skills candidate_skills
        raw_text jd threshold).similarity_score
    ∧ (screenCandidate sim required_skills candidate_skills
        raw_text jd threshold).similarity_score ≤ 100 := by
  have hlow : round2 (-100) = -100 := by norm_num [round2, round_eq]
  have hhigh : round2 100 = 100 := by norm_num [round2, round_eq]
  refine ⟨rfl, ?_, ?_⟩
  · show -100 ≤ similarity_score_of sim raw_text jd
    rw [similarity_score_of]
    calc (-100 : ℚ) = round2 (-100) := hlow.symm
      _ ≤ round2 (sim (raw_text.take 2000) jd * 100) := round2_mono (by linarith)
  · show similarity_score_of sim raw_text jd ≤ 100
    rw [similarity_score_of]
    calc round2 (sim (raw_text.take 2000) jd * 100) ≤ round2 100 :=
        round2_mono (by linarith)
      _ = 100 := hhigh

/-- C3 witness: a concrete instantiation with cosine similarity 1/2. -/
theorem c3_witness :
    -1 ≤ (1 / 2 : ℚ) ∧ (1 / 2 : ℚ) ≤ 1
    ∧ ((screenCandidate (fun _ _ => 1 / 2) [] [] [] [] 50).similarity_score
        = round2 ((1 / 2 : ℚ) * 100)
      ∧ -100 ≤ (screenCandidate (fun _ _ => 1 / 2) [] [] [] [] 50).similarity_score
      ∧ (screenCandidate (fun _ _ => 1 / 2) [] [] [] [] 50).similarity_score ≤ 100) :=
  ⟨by norm_num, by norm_num,
    c3_similarity_truncated_not_clamped (fun _ _ => 1 / 2) [] [] [] [] 50
      (by norm_num) (by norm_num)⟩

/-- The search model returns min k corpusSize hits. -/
theorem faissSearch_length (vecs : List Vec) (q : Vec) (k : ℕ) :
    (faissSearch vecs q k).length = min k vecs.length := by
  rw [faissSearch, List.length_take, List.length_insertionSort, List.enum_length,
    List.length_map]

/-- The search model returns hits sorted by non-decreasing distance. -/
theorem faissSearch_sorted (vecs : List Vec) (q : Vec) (k : ℕ) :
    List.Sorted distLE (faissSearch vecs q k) :=
  List.Pairwise.sublist (List.take_sublist _ _)
    (List.sorted_insertionSort distLE _)

/-- C6: for every built index holding corpusSize vectors, every query and
every k ≥ 1, retrieval returns exactly min k corpusSize results, sorted
by non-decreasing distance; in particular k larger than the corpus
yields exactly corpus-size results. -/
theorem c6_search_length_sorted (embed : List Char → Vec) (st : ChatState)
    (vecs : List Vec) (query : List Char) (k : ℕ)
    (hidx : st.index = some vecs) (hk : 1 ≤ k) :
    (PolicyChatbot.retrieve_relevant_chunks embed st query k).length = min k vecs.length
    ∧ List.Sorted (fun a b : RetrievedChunk => a.distance ≤ b.distance)
        (PolicyChatbot.retrieve_relevant_chunks embed st query k) := by
  obtain ⟨chs, srcs, idx⟩ := st
  simp only at hidx
  subst hidx
  simp only [PolicyChatbot.retrieve_relevant_chunks]
  constructor
  · rw [List.length_map, List.enum_length, faissSearch_length]
  · apply List.pairwise_map.mpr
    have hs : List.Sorted distLE (faissSearch vecs (embed query) k) :=
      faissSearch_sorted vecs (embed query) k
    have hiff : List.Pairwise distLE
        (((faissSearch vecs (embed query) k).enum).map Prod.snd)
        ↔ List.Pairwise (fun a b => distLE a.2 b.2)
            ((faissSearch vecs (embed query) k).enum) := List.pairwise_map
    rw [List.enum_map_snd] at hiff
    exact hiff.mp hs

/-- C6 witness: a two-vector index queried with k = 5 returns exactly two
results in sorted order. -/
theorem c6_witness :
    (ChatState.mk [("x").toList] [("s").toList] (some [[1], [3]])).index = some [[1], [3]]
    ∧ 1 ≤ 5
    ∧ ((PolicyChatbot.retrieve_relevant_chunks (fun _ => [0])
          (ChatState.mk [("x").toList] [("s").toList] (some [[1], [3]]))
          (("q").toList) 5).length = min 5 ([[1], [3]] : List Vec).length
      ∧ List.Sorted (fun a b : RetrievedChunk => a.distance ≤ b.distance)
          (PolicyChatbot.retrieve_relevant_chunks (fun _ => [0])
            (ChatState.mk [("x").toList] [("s").toList] (some [[1], [3]]))
            (("q").toList) 5)) :=
  ⟨rfl, by norm_num,
    c6_search_length_sorted (fun _ => [0])
      (ChatState.mk [("x").toList] [("s").toList] (some [[1], [3]]))
      [[1], [3]] (("q").toList) 5 rfl (by norm_num)⟩

/-- C7: refuted.  A search against the unbuilt index does not fail with a
distinguishable IndexNotReady error: retrieve_relevant_chunks logs a
message and returns the plain empty list, the very value of an empty
successful search (policy_chatbot.py lines 223-225). -/
theorem c7_counterexample :
    PolicyChatbot.retrieve_relevant_chunks (fun _ => [])
      (ChatState.mk [] [] none) (("vacation").toList) 5
      = ([] : List RetrievedChunk) := rfl

/-- C7 (amended): a search against an unbuilt (or empty) index returns
the empty result list, indistinguishable in-band from an empty success;
callers can detect the condition only by the emptiness of the list. -/
theorem c7_unbuilt_index_empty_result (embed : List Char → Vec) (st : ChatState)
    (query : List Char) (k : ℕ) (h : st.index = none ∨ st.index = some []) :
    PolicyChatbot.retrieve_relevant_chunks embed st query k = [] := by
  obtain ⟨chs, srcs, idx⟩ := st
  rcases h with h | h <;> simp only at h <;> subst h <;>
    simp [PolicyChatbot.retrieve_relevant_chunks, faissSearch, List.insertionSort]

/-- C7 witness: instantiation at a fresh session state with no index. -/
theorem c7_witness :
    (ChatState.mk [] [] none).index = none
    ∧ PolicyChatbot.retrieve_relevant_chunks (fun _ => [])
        (ChatState.mk [] [] none) (("q").toList) 3 = [] :=
  ⟨rfl, c7_unbuilt_index_empty_result (fun _ => []) (ChatState.mk [] [] none)
    (("q").toList) 3 (Or.inl rfl)⟩

/-- C8: when retrieval yields zero chunks (empty or unbuilt index),
generate_response returns the fixed fallback answer with an empty source
list and makes zero Language Model Provider calls. -/
theorem c8_fallback_no_provider_call (embed : List Char → Vec)
    (llm : List Char → List Char) (st : ChatState) (query : List Char)
    (h : PolicyChatbot.retrieve_relevant_chunks embed st query 5 = []) :
    PolicyChatbot.generate_response embed llm st query
      = ({ answer := fallbackAnswer, sources := [] }, 0) := by
  simp [PolicyChatbot.generate_response, h]

/-- C8 witness: instantiation at a fresh session state with no index. -/
theorem c8_witness :
    PolicyChatbot.retrieve_relevant_chunks (fun _ => [])
        (ChatState.mk [] [] none) (("q").toList) 5 = []
    ∧ PolicyChatbot.generate_response (fun _ => []) (fun _ => ("ans").toList)
        (ChatState.mk [] [] none) (("q").toList)
      = ({ answer := fallbackAnswer, sources := [] }, 0) :=
  ⟨rfl, c8_fallback_no_provider_call (fun _ => []) (fun _ => ("ans").toList)
    (ChatState.mk [] [] none) (("q").toList) rfl⟩
